import Mathlib

/-!
Verification development for the reticulum P2P chat program.

The embedding models the networking core of the program:
the wire codec (`Message.encode_for_broadcast`, `Receiver.parse_message`),
the discovery handler (`Receiver.handle_discovery`), the chat listen loop
body (`listen_for_messages_step`), the chat broadcaster
(`Broadcaster.broadcast_message`, `Broadcaster.discover_peers`) and the
periodic peer-list merge from the main task.

Rust strings are modelled as `List Char`; `str::split` on the
one-character field splitter and `[&str]::join` are modelled by
`splitChar` / `joinChar`; `HashSet<SocketAddr>` is modelled as
`Finset SocketAddr`; UDP sends are modelled as the list of attempted
`(target, datagram)` pairs, with fallibility represented by a
send-outcome oracle where the source code inspects the result.
-/

namespace Reticulum

/-- An IPv4 address, four octets (from `std::net::Ipv4Addr`). -/
structure Ipv4 where
  a : Nat
  b : Nat
  c : Nat
  d : Nat
deriving DecidableEq

/-- A socket address: IP plus port (from `std::net::SocketAddr`). -/
structure SocketAddr where
  ip : Ipv4
  port : Nat
deriving DecidableEq

/-! Constants from `src/constants.rs`. -/

def CHAT_PORT : Nat := 2223

def DISCOVERY_PORT : Nat := 2224

/-- `BROADCAST_ADDR = "255.255.255.255"`, parsed as an address. -/
def BROADCAST_ADDR : Ipv4 := ⟨255, 255, 255, 255⟩

/-- `TAILSCALE_MULTICAST = "100.100.100.100"`, parsed as an address. -/
def TAILSCALE_MULTICAST : Ipv4 := ⟨100, 100, 100, 100⟩

def MSG_TYPE_DISCOVERY : List Char := "DISCOVER".toList

def MSG_TYPE_DISCOVERY_RESPONSE : List Char := "DISCOVER_RESPONSE".toList

def MSG_TYPE_CHAT : List Char := "CHAT".toList

/-- `FIELD_SPLITTER = "~"`, a one-character separator. -/
def FIELD_SPLITTER : Char := '~'

/-- The `Message` struct from `src/message.rs`. -/
structure Message where
  content : List Char
  sender_name : List Char
  sender_ip : List Char
deriving DecidableEq

/-- `Message::new(content, sender_name, sender_ip)`. -/
def Message.new (content sender_name sender_ip : List Char) : Message :=
  ⟨content, sender_name, sender_ip⟩

/-- `Message::encode_for_broadcast`: `name ~ ip ~ content`. -/
def Message.encode_for_broadcast (m : Message) : List Char :=
  m.sender_name ++ [FIELD_SPLITTER] ++ m.sender_ip ++ [FIELD_SPLITTER] ++ m.content

/-- `str::split` on a single-character pattern: Rust yields the (possibly
empty) substrings between occurrences of the separator, and `""` splits
to `[""]`. -/
def splitChar (sep : Char) : List Char → List (List Char)
  | [] => [[]]
  | c :: rest =>
    if c = sep then
      [] :: splitChar sep rest
    else
      match splitChar sep rest with
      | [] => [[c]]
      | f :: fs => (c :: f) :: fs

/-- `[&str]::join` on the one-character separator string. -/
def joinChar (sep : Char) : List (List Char) → List Char
  | [] => []
  | [x] => x
  | x :: y :: xs => x ++ sep :: joinChar sep (y :: xs)

/-- `Receiver::parse_message` from `src/networking.rs`: total decode of a
datagram into `(msg_type, sender_name, content, sender_ip)`. -/
def parse_message (udp_data : List Char) :
    List Char × List Char × List Char × List Char :=
  if udp_data.isEmpty then
    ([], "Unknown".toList, [], "Unknown".toList)
  else
    let parts := splitChar FIELD_SPLITTER udp_data
    if parts.length < 2 then
      ([], "Unknown".toList, udp_data, "Unknown".toList)
    else
      let msg_type := parts.getD 0 []
      if parts.length < 4 then
        (msg_type, "Unknown".toList,
          joinChar FIELD_SPLITTER (parts.drop 1), "Unknown".toList)
      else
        (msg_type, parts.getD 1 [],
          joinChar FIELD_SPLITTER (parts.drop 3), parts.getD 2 [])

/-! Basic facts about `splitChar` and `joinChar`. -/

theorem splitChar_ne_nil (sep : Char) (l : List Char) : splitChar sep l ≠ [] := by
  cases l with
  | nil => simp [splitChar]
  | cons c rest =>
    simp only [splitChar]
    by_cases h : c = sep
    · simp [h]
    · simp only [if_neg h]
      cases hr : splitChar sep rest with
      | nil => simp
      | cons f fs => simp

theorem splitChar_no_sep (sep : Char) (l : List Char) (h : sep ∉ l) :
    splitChar sep l = [l] := by
  induction l with
  | nil => rfl
  | cons c rest ih =>
    have hc : c ≠ sep := fun hcs => h (hcs ▸ List.mem_cons_self c rest)
    have hrest : sep ∉ rest := fun hm => h (List.mem_cons_of_mem c hm)
    simp only [splitChar, if_neg hc, ih hrest]

theorem splitChar_append (sep : Char) (l rest : List Char) (h : sep ∉ l) :
    splitChar sep (l ++ sep :: rest) = l :: splitChar sep rest := by
  induction l with
  | nil => simp [splitChar]
  | cons c t ih =>
    have hc : c ≠ sep := fun hcs => h (hcs ▸ List.mem_cons_self c t)
    have ht : sep ∉ t := fun hm => h (List.mem_cons_of_mem c hm)
    simp only [List.cons_append, splitChar, if_neg hc, List.append_eq, ih ht]

theorem length_splitChar (sep : Char) (l : List Char) :
    (splitChar sep l).length = l.count sep + 1 := by
  induction l with
  | nil => simp [splitChar]
  | cons c rest ih =>
    simp only [splitChar]
    by_cases h : c = sep
    · simp [h, List.count_cons, ih]
    · simp only [if_neg h]
      cases hr : splitChar sep rest with
      | nil => exact absurd hr (splitChar_ne_nil sep rest)
      | cons f fs =>
        have hne : (sep == c) = false := by
          simp [beq_iff_eq]
          exact fun hh => h hh.symm
        rw [hr] at ih
        simp only [List.length_cons] at ih ⊢
        simp [List.count_cons, beq_iff_eq, Ne.symm h, ih]

/-! The networking operations from `src/networking.rs` and the peer-list
sync task from `src/main.rs`. -/

/-- `Ipv4Addr` rendered with `to_string()`: `a.b.c.d`. -/
def ipToString (ip : Ipv4) : List Char :=
  (Nat.repr ip.a).toList ++ '.' :: (Nat.repr ip.b).toList ++
    '.' :: (Nat.repr ip.c).toList ++ '.' :: (Nat.repr ip.d).toList

/-- The chat datagram sent by `Broadcaster::broadcast_message`:
`CHAT ~ name ~ ip ~ content`. -/
def encode_chat (message : Message) : List Char :=
  MSG_TYPE_CHAT ++ [FIELD_SPLITTER] ++ message.encode_for_broadcast

/-- The discovery probe datagram built in `Broadcaster::discover_peers`:
`DISCOVER ~ username ~ None`. -/
def discovery_msg (username : List Char) : List Char :=
  MSG_TYPE_DISCOVERY ++ [FIELD_SPLITTER] ++ username ++
    [FIELD_SPLITTER] ++ "None".toList

/-- The discovery response datagram built in `Receiver::handle_discovery`:
`DISCOVER_RESPONSE ~ username ~ None`. -/
def discovery_response (username : List Char) : List Char :=
  MSG_TYPE_DISCOVERY_RESPONSE ++ [FIELD_SPLITTER] ++ username ++
    [FIELD_SPLITTER] ++ "None".toList

/-- `Receiver::handle_discovery`: parse the datagram; on a `DISCOVER`
probe send one response to the literal source address (propagating a send
failure through `?` before the peer insert) and insert the source into
the peer set; on a `DISCOVER_RESPONSE` insert the source (no reply);
otherwise only log. Returns the new peer set and the sent datagrams. -/
def handle_discovery (sendOk : SocketAddr → List Char → Bool)
    (peers : Finset SocketAddr) (username : List Char)
    (src : SocketAddr) (data : List Char) :
    Except Unit (Finset SocketAddr × List (SocketAddr × List Char)) :=
  let parsed := parse_message data
  let msg_type := parsed.1
  if msg_type = MSG_TYPE_DISCOVERY then
    let response := discovery_response username
    if sendOk src response then
      Except.ok (insert src peers, [(src, response)])
    else
      Except.error ()
  else if msg_type = MSG_TYPE_DISCOVERY_RESPONSE then
    Except.ok (insert src peers, [])
  else
    Except.ok (peers, [])

/-- The result of one iteration of the `Receiver::listen_for_messages`
receive loop: the message handed to the queue producer, if any, and the
updated peer set. -/
structure ListenStep where
  enqueued : Option Message
  peers : Finset SocketAddr
deriving DecidableEq

/-- One iteration of the receive loop in `Receiver::listen_for_messages`:
parse the datagram; skip it unless its type is `CHAT`; otherwise build a
`Message` from the decoded name and content and the transport source IP,
hand it to the queue producer, and insert the source into the peer set. -/
def listen_for_messages_step (peers : Finset SocketAddr)
    (src : SocketAddr) (data : List Char) : ListenStep :=
  let parsed := parse_message data
  let msg_type := parsed.1
  let name := parsed.2.1
  let content := parsed.2.2.1
  if msg_type ≠ MSG_TYPE_CHAT then
    ⟨none, peers⟩
  else
    let sender_ip := ipToString src.ip
    let message := Message.new content name sender_ip
    ⟨some message, insert src peers⟩

/-- The shared state of a `Broadcaster`. -/
structure Broadcaster where
  peers : Finset SocketAddr
  chat_port : Nat
  username : List Char

/-- The brute-force Tailscale sweep of `Broadcaster::broadcast_message`:
`for a in 64..128 { for b in 0..255 { "100.{a}.{b}.2" } }`. -/
def tailscale_range : List Ipv4 :=
  (List.range' 64 64).flatMap fun a =>
    (List.range 255).map fun b => ⟨100, a, b, 2⟩

/-- `Broadcaster::broadcast_message`: encode the chat datagram, snapshot
the peer set, attempt a unicast send to every peer's IP on the chat port
(logging but not propagating failures), then send to the local broadcast
address and to every address of the Tailscale sweep. Returns the
unchanged state and the multiset of attempted sends
`(target, datagram, outcome)`. -/
def broadcast_message (sendOk : SocketAddr → List Char → Bool)
    (st : Broadcaster) (message : Message) :
    Broadcaster × Multiset (SocketAddr × List Char × Bool) :=
  let encoded := encode_chat message
  let attempt := fun (t : SocketAddr) => (t, encoded, sendOk t encoded)
  let peers := st.peers
  let peer_sends : Multiset (SocketAddr × List Char × Bool) :=
    if peers = ∅ then 0
    else peers.val.map fun p => attempt ⟨p.ip, st.chat_port⟩
  let broadcast_send := attempt ⟨BROADCAST_ADDR, st.chat_port⟩
  let tailscale_sends : Multiset (SocketAddr × List Char × Bool) :=
    ↑(tailscale_range.map fun ip => attempt ⟨ip, st.chat_port⟩)
  (st, peer_sends + {broadcast_send} + tailscale_sends)

/-- `Broadcaster::discover_peers`: send the discovery probe to the local
broadcast address and to the Tailscale rendezvous address on the
discovery port, ignoring send failures. Returns the unchanged state and
the attempted sends. -/
def discover_peers (st : Broadcaster) :
    Broadcaster × List (SocketAddr × List Char) :=
  (st, [(⟨BROADCAST_ADDR, DISCOVERY_PORT⟩, discovery_msg st.username),
        (⟨TAILSCALE_MULTICAST, DISCOVERY_PORT⟩, discovery_msg st.username)])

/-- One cycle of the peer-list sync task in `src/main.rs`: iterate over a
clone of the receiver's peer set and insert each address into the
broadcaster's peer set. -/
def merge_peers (receiver_snapshot : List SocketAddr)
    (broadcaster_peers : Finset SocketAddr) : Finset SocketAddr :=
  receiver_snapshot.foldl (fun acc peer => insert peer acc) broadcaster_peers

/-- `HashSet::insert` on a peer set: returns the new set and whether the
address was newly added. -/
def peer_insert (peers : Finset SocketAddr) (addr : SocketAddr) :
    Finset SocketAddr × Bool :=
  (insert addr peers, decide (addr ∉ peers))

/-! Helper lemmas shared by the claim theorems. -/

theorem parse_message_head (s : List Char) (h1 : s ≠ [])
    (h2 : 2 ≤ (splitChar FIELD_SPLITTER s).length) :
    (parse_message s).1 = (splitChar FIELD_SPLITTER s).getD 0 [] := by
  have hne : s.isEmpty = false := by
    cases s with
    | nil => exact absurd rfl h1
    | cons c t => rfl
  simp only [parse_message, hne, Bool.false_eq_true, if_false]
  rw [if_neg (by omega)]
  by_cases h4 : (splitChar FIELD_SPLITTER s).length < 4
  · rw [if_pos h4]
  · rw [if_neg h4]

theorem mem_tailscale_range (ip : Ipv4) :
    ip ∈ tailscale_range ↔
      ∃ a b, 64 ≤ a ∧ a < 128 ∧ b < 255 ∧ ip = ⟨100, a, b, 2⟩ := by
  simp only [tailscale_range, List.mem_flatMap, List.mem_map, List.mem_range,
    List.mem_range'_1]
  constructor
  · rintro ⟨a, ⟨ha1, ha2⟩, b, hb, rfl⟩
    exact ⟨a, b, ha1, by omega, hb, rfl⟩
  · rintro ⟨a, b, ha1, ha2, hb, rfl⟩
    exact ⟨a, ⟨ha1, by omega⟩, b, hb, rfl⟩

theorem mem_merge_peers (l : List SocketAddr) (s : Finset SocketAddr)
    (a : SocketAddr) : a ∈ merge_peers l s ↔ a ∈ l ∨ a ∈ s := by
  induction l generalizing s with
  | nil => simp [merge_peers]
  | cons b t ih =>
    simp only [merge_peers, List.foldl_cons] at ih ⊢
    rw [ih (insert b s)]
    simp only [List.mem_cons, Finset.mem_insert]
    tauto

/-! The claims. -/

/-- Claim C5: for every input that splits into four or more
separator-separated fields, `parse_message` returns field 0 as the type,
field 1 as the name, fields 3 onward rejoined by the separator as the
content, and field 2 as the ip. -/
theorem parse_message_four_fields (s : List Char)
    (h : 4 ≤ (splitChar FIELD_SPLITTER s).length) :
    parse_message s =
      ((splitChar FIELD_SPLITTER s).getD 0 [],
       (splitChar FIELD_SPLITTER s).getD 1 [],
       joinChar FIELD_SPLITTER ((splitChar FIELD_SPLITTER s).drop 3),
       (splitChar FIELD_SPLITTER s).getD 2 []) := by
  have h1 : s ≠ [] := by
    rintro rfl
    simp [splitChar] at h
  have hne : s.isEmpty = false := by
    cases s with
    | nil => exact absurd rfl h1
    | cons c t => rfl
  simp only [parse_message, hne, Bool.false_eq_true, if_false]
  rw [if_neg (by omega), if_neg (by omega)]

/-- Witness for C5 at a concrete four-field datagram. -/
theorem parse_message_four_fields_witness :
    parse_message "a~b~c~d".toList =
      ((splitChar FIELD_SPLITTER "a~b~c~d".toList).getD 0 [],
       (splitChar FIELD_SPLITTER "a~b~c~d".toList).getD 1 [],
       joinChar FIELD_SPLITTER ((splitChar FIELD_SPLITTER "a~b~c~d".toList).drop 3),
       (splitChar FIELD_SPLITTER "a~b~c~d".toList).getD 2 []) :=
  parse_message_four_fields "a~b~c~d".toList (by decide)

/-- Claim C6: `parse_message` is total and degrades: the empty input
gives the empty type, name and content `Unknown` and empty content slot;
an input with no separator (fewer than 2 fields) is returned raw in the
content position; an input with exactly 2 or 3 fields (1 or 2 separator
occurrences) keeps its first field as the type and rejoins the remaining
fields into the content position, with name and ip slots `Unknown`. -/
theorem parse_message_degrades (s : List Char) :
    (s = [] → parse_message s = ([], "Unknown".toList, [], "Unknown".toList)) ∧
    (s ≠ [] → FIELD_SPLITTER ∉ s →
      parse_message s = ([], "Unknown".toList, s, "Unknown".toList)) ∧
    (s.count FIELD_SPLITTER = 1 ∨ s.count FIELD_SPLITTER = 2 →
      parse_message s =
        ((splitChar FIELD_SPLITTER s).getD 0 [], "Unknown".toList,
         joinChar FIELD_SPLITTER ((splitChar FIELD_SPLITTER s).drop 1),
         "Unknown".toList)) := by
  refine ⟨fun h => by subst h; rfl, fun h1 h2 => ?_, fun h3 => ?_⟩
  · have hne : s.isEmpty = false := by
      cases s with
      | nil => exact absurd rfl h1
      | cons c t => rfl
    have hs : splitChar FIELD_SPLITTER s = [s] := splitChar_no_sep _ _ h2
    simp [parse_message, hne, hs]
  · have hcpos : 0 < s.count FIELD_SPLITTER := by omega
    have hmem : FIELD_SPLITTER ∈ s := by
      by_contra hnm
      rw [List.count_eq_zero_of_not_mem hnm] at hcpos
      omega
    have h1 : s ≠ [] := by
      rintro rfl
      simp at hmem
    have hne : s.isEmpty = false := by
      cases s with
      | nil => exact absurd rfl h1
      | cons c t => rfl
    have hlen : (splitChar FIELD_SPLITTER s).length = s.count FIELD_SPLITTER + 1 :=
      length_splitChar _ _
    simp only [parse_message, hne, Bool.false_eq_true, if_false]
    rw [if_neg (by omega), if_pos (by omega)]

/-- Witness for C6 at a concrete one-field input and a concrete
three-field input. -/
theorem parse_message_degrades_witness :
    parse_message "abc".toList =
      ([], "Unknown".toList, "abc".toList, "Unknown".toList) ∧
    parse_message "DISCOVER~bob~None".toList =
      ((splitChar FIELD_SPLITTER "DISCOVER~bob~None".toList).getD 0 [],
       "Unknown".toList,
       joinChar FIELD_SPLITTER
         ((splitChar FIELD_SPLITTER "DISCOVER~bob~None".toList).drop 1),
       "Unknown".toList) :=
  ⟨(parse_message_degrades "abc".toList).2.1 (by decide) (by decide),
   (parse_message_degrades "DISCOVER~bob~None".toList).2.2 (Or.inr (by decide))⟩

/-- Claim C2, counterexample: the round trip does not hold for every
message whose name and content are separator-free — a separator inside
the (unconstrained) ip field shifts the content: for
`name = "a"`, `ip = "x~y"`, `content = "c"` the decoded content is
`"y~c"`, not `"c"`. -/
theorem parse_encode_roundtrip_counterexample :
    (parse_message (encode_chat (Message.new "c".toList "a".toList "x~y".toList))).2.2.1
      ≠ (Message.new "c".toList "a".toList "x~y".toList).content := by
  decide

/-- Claim C2, amended: for every message whose name, ip and content are
all free of the separator character, decoding the encoded chat datagram
recovers the type tag, the name, the content and the ip exactly. -/
theorem parse_encode_roundtrip (m : Message)
    (hname : FIELD_SPLITTER ∉ m.sender_name)
    (hip : FIELD_SPLITTER ∉ m.sender_ip)
    (hcontent : FIELD_SPLITTER ∉ m.content) :
    parse_message (encode_chat m) =
      (MSG_TYPE_CHAT, m.sender_name, m.content, m.sender_ip) := by
  have hassoc : encode_chat m = MSG_TYPE_CHAT ++ FIELD_SPLITTER ::
      (m.sender_name ++ FIELD_SPLITTER ::
        (m.sender_ip ++ FIELD_SPLITTER :: m.content)) := by
    simp [encode_chat, Message.encode_for_broadcast]
  have hsplit : splitChar FIELD_SPLITTER (encode_chat m) =
      [MSG_TYPE_CHAT, m.sender_name, m.sender_ip, m.content] := by
    rw [hassoc, splitChar_append _ _ _ (by decide),
      splitChar_append _ _ _ hname, splitChar_append _ _ _ hip,
      splitChar_no_sep _ _ hcontent]
  have hne : (encode_chat m).isEmpty = false := by
    rw [hassoc]
    rfl
  simp only [parse_message, hne, Bool.false_eq_true, if_false, hsplit]
  simp [joinChar]

/-- Witness for C2 (amended) at a concrete separator-free message. -/
theorem parse_encode_roundtrip_witness :
    parse_message (encode_chat
        (Message.new "hello".toList "alice".toList "000.000.000.000".toList)) =
      (MSG_TYPE_CHAT, "alice".toList, "hello".toList,
        "000.000.000.000".toList) :=
  parse_encode_roundtrip
    (Message.new "hello".toList "alice".toList "000.000.000.000".toList)
    (by decide) (by decide) (by decide)

/-- Claim C3: on a discovery probe `DISCOVER~x~None` from source `src`,
when the response send succeeds, `handle_discovery` completes with `src`
in the peer set and exactly one response datagram
`DISCOVER_RESPONSE~username~None` sent to the literal source address. -/
theorem handle_discovery_probe (sendOk : SocketAddr → List Char → Bool)
    (peers : Finset SocketAddr) (username x : List Char) (src : SocketAddr)
    (hsend : sendOk src (discovery_response username) = true) :
    handle_discovery sendOk peers username src (discovery_msg x) =
      Except.ok (insert src peers, [(src, discovery_response username)]) ∧
    src ∈ insert src peers := by
  have hassoc : discovery_msg x = MSG_TYPE_DISCOVERY ++ FIELD_SPLITTER ::
      (x ++ FIELD_SPLITTER :: "None".toList) := by
    simp [discovery_msg]
  have hsplit : splitChar FIELD_SPLITTER (discovery_msg x) =
      MSG_TYPE_DISCOVERY ::
        splitChar FIELD_SPLITTER (x ++ FIELD_SPLITTER :: "None".toList) := by
    rw [hassoc, splitChar_append _ _ _ (by decide)]
  have hnonempty : discovery_msg x ≠ [] := by
    rw [hassoc]
    simp
  have hlen : 2 ≤ (splitChar FIELD_SPLITTER (discovery_msg x)).length := by
    rw [hsplit]
    cases hr : splitChar FIELD_SPLITTER (x ++ FIELD_SPLITTER :: "None".toList) with
    | nil => exact absurd hr (splitChar_ne_nil _ _)
    | cons f fs => simp
  have htype : (parse_message (discovery_msg x)).1 = MSG_TYPE_DISCOVERY := by
    rw [parse_message_head _ hnonempty hlen, hsplit]
    rfl
  refine ⟨?_, Finset.mem_insert_self src peers⟩
  simp [handle_discovery, htype, hsend]

/-- Witness for C3 at a concrete probe, source address and username. -/
theorem handle_discovery_probe_witness :
    handle_discovery (fun _ _ => true) ∅ "me".toList ⟨⟨10, 0, 0, 7⟩, 2224⟩
        (discovery_msg "bob".toList) =
      Except.ok (insert ⟨⟨10, 0, 0, 7⟩, 2224⟩ ∅,
        [(⟨⟨10, 0, 0, 7⟩, 2224⟩, discovery_response "me".toList)]) ∧
    (⟨⟨10, 0, 0, 7⟩, 2224⟩ : SocketAddr) ∈
      insert (⟨⟨10, 0, 0, 7⟩, 2224⟩ : SocketAddr) (∅ : Finset SocketAddr) :=
  handle_discovery_probe (fun _ _ => true) ∅ "me".toList "bob".toList
    ⟨⟨10, 0, 0, 7⟩, 2224⟩ rfl

/-- Claim C8: for a datagram whose decoded type is not `DISCOVER`,
`handle_discovery` sends nothing; it inserts the source into the peer set
exactly when the type is `DISCOVER_RESPONSE` and otherwise leaves the
peer set unchanged. -/
theorem handle_discovery_non_probe (sendOk : SocketAddr → List Char → Bool)
    (peers : Finset SocketAddr) (username : List Char) (src : SocketAddr)
    (data : List Char) (h : (parse_message data).1 ≠ MSG_TYPE_DISCOVERY) :
    handle_discovery sendOk peers username src data =
      Except.ok
        ((if (parse_message data).1 = MSG_TYPE_DISCOVERY_RESPONSE
          then insert src peers else peers), []) := by
  simp only [handle_discovery]
  rw [if_neg h]
  by_cases h2 : (parse_message data).1 = MSG_TYPE_DISCOVERY_RESPONSE
  · rw [if_pos h2, if_pos h2]
  · rw [if_neg h2, if_neg h2]

/-- Witness for C8 at a concrete discovery response and at a concrete
unknown-type datagram. -/
theorem handle_discovery_non_probe_witness :
    handle_discovery (fun _ _ => false) ∅ "me".toList ⟨⟨10, 0, 0, 7⟩, 2224⟩
        "DISCOVER_RESPONSE~bob~None".toList =
      Except.ok
        ((if (parse_message "DISCOVER_RESPONSE~bob~None".toList).1 =
            MSG_TYPE_DISCOVERY_RESPONSE
          then insert (⟨⟨10, 0, 0, 7⟩, 2224⟩ : SocketAddr) ∅ else ∅), []) ∧
    handle_discovery (fun _ _ => false) ∅ "me".toList ⟨⟨10, 0, 0, 7⟩, 2224⟩
        "JUNK".toList =
      Except.ok
        ((if (parse_message "JUNK".toList).1 = MSG_TYPE_DISCOVERY_RESPONSE
          then insert (⟨⟨10, 0, 0, 7⟩, 2224⟩ : SocketAddr) ∅ else ∅), []) :=
  ⟨handle_discovery_non_probe (fun _ _ => false) ∅ "me".toList
      ⟨⟨10, 0, 0, 7⟩, 2224⟩ "DISCOVER_RESPONSE~bob~None".toList (by decide),
   handle_discovery_non_probe (fun _ _ => false) ∅ "me".toList
      ⟨⟨10, 0, 0, 7⟩, 2224⟩ "JUNK".toList (by decide)⟩

/-- Claim C4: one iteration of the chat listen loop drops the empty
datagram and every datagram whose decoded type is not `CHAT`, enqueuing
nothing and leaving the peer set unchanged; on a `CHAT` datagram it
enqueues a `Message` built from the decoded name and content and the
rendered transport source IP — not the payload's ip field — and inserts
the transport source address into the peer set. -/
theorem listen_for_messages_step_spec (peers : Finset SocketAddr)
    (src : SocketAddr) (data : List Char) :
    (listen_for_messages_step peers src [] = ⟨none, peers⟩) ∧
    ((parse_message data).1 ≠ MSG_TYPE_CHAT →
      listen_for_messages_step peers src data = ⟨none, peers⟩) ∧
    ((parse_message data).1 = MSG_TYPE_CHAT →
      listen_for_messages_step peers src data =
        ⟨some (Message.new (parse_message data).2.2.1 (parse_message data).2.1
          (ipToString src.ip)), insert src peers⟩) := by
  refine ⟨?_, fun h => ?_, fun h => ?_⟩
  · simp only [listen_for_messages_step]
    rw [if_pos (show (parse_message []).1 ≠ MSG_TYPE_CHAT by decide)]
  · simp only [listen_for_messages_step]
    rw [if_pos h]
  · simp only [listen_for_messages_step]
    rw [if_neg (not_not_intro h)]

/-- Witness for C4 at a concrete non-chat datagram and a concrete chat
datagram from source 1.2.3.4. -/
theorem listen_for_messages_step_spec_witness :
    listen_for_messages_step ∅ ⟨⟨1, 2, 3, 4⟩, 2223⟩
        "DISCOVER~bob~None".toList = ⟨none, ∅⟩ ∧
    listen_for_messages_step ∅ ⟨⟨1, 2, 3, 4⟩, 2223⟩
        "CHAT~alice~000.000.000.000~hi".toList =
      ⟨some (Message.new "hi".toList "alice".toList "1.2.3.4".toList),
        insert (⟨⟨1, 2, 3, 4⟩, 2223⟩ : SocketAddr) ∅⟩ :=
  ⟨(listen_for_messages_step_spec ∅ ⟨⟨1, 2, 3, 4⟩, 2223⟩
      "DISCOVER~bob~None".toList).2.1 (by decide),
   (listen_for_messages_step_spec ∅ ⟨⟨1, 2, 3, 4⟩, 2223⟩
      "CHAT~alice~000.000.000.000~hi".toList).2.2 (by decide)⟩

/-- Claim C7: after a reconciliation merge cycle, every address of the
receiver's snapshot is in the merged broadcaster peer set, and the merge
never removes an address already in the broadcaster's peer set. -/
theorem merge_peers_superset (l : List SocketAddr) (s : Finset SocketAddr) :
    (∀ a ∈ l, a ∈ merge_peers l s) ∧ (∀ a ∈ s, a ∈ merge_peers l s) :=
  ⟨fun a ha => (mem_merge_peers l s a).mpr (Or.inl ha),
   fun a ha => (mem_merge_peers l s a).mpr (Or.inr ha)⟩

/-- Witness for C7 at a concrete snapshot and broadcaster peer set. -/
theorem merge_peers_superset_witness :
    (⟨⟨10, 0, 0, 1⟩, 2224⟩ : SocketAddr) ∈
      merge_peers [⟨⟨10, 0, 0, 1⟩, 2224⟩] {⟨⟨10, 0, 0, 2⟩, 2224⟩} ∧
    (⟨⟨10, 0, 0, 2⟩, 2224⟩ : SocketAddr) ∈
      merge_peers [⟨⟨10, 0, 0, 1⟩, 2224⟩] {⟨⟨10, 0, 0, 2⟩, 2224⟩} :=
  ⟨(merge_peers_superset [⟨⟨10, 0, 0, 1⟩, 2224⟩] {⟨⟨10, 0, 0, 2⟩, 2224⟩}).1
      _ (by decide),
   (merge_peers_superset [⟨⟨10, 0, 0, 1⟩, 2224⟩] {⟨⟨10, 0, 0, 2⟩, 2224⟩}).2
      _ (by decide)⟩

/-- Claim C9: inserting an absent address grows the peer set by exactly
one and reports it as new; a subsequent insert of the same address leaves
the set and its size unchanged and reports false; the underlying
collection never holds duplicates. -/
theorem peer_insert_idempotent (peers : Finset SocketAddr)
    (addr : SocketAddr) (h : addr ∉ peers) :
    (peer_insert peers addr).1.card = peers.card + 1 ∧
    (peer_insert peers addr).2 = true ∧
    (peer_insert (peer_insert peers addr).1 addr).1 = (peer_insert peers addr).1 ∧
    (peer_insert (peer_insert peers addr).1 addr).1.card =
      (peer_insert peers addr).1.card ∧
    (peer_insert (peer_insert peers addr).1 addr).2 = false ∧
    (peer_insert peers addr).1.val.Nodup := by
  refine ⟨Finset.card_insert_of_not_mem h, decide_eq_true h, ?_, ?_, ?_, ?_⟩
  · exact Finset.insert_idem addr peers
  · exact congrArg Finset.card (Finset.insert_idem addr peers)
  · exact decide_eq_false (not_not_intro (Finset.mem_insert_self addr peers))
  · exact (insert addr peers).nodup

/-- Witness for C9 at a concrete address absent from the empty peer set. -/
theorem peer_insert_idempotent_witness :
    (peer_insert ∅ ⟨⟨10, 0, 0, 1⟩, 2224⟩).1.card =
      Finset.card (∅ : Finset SocketAddr) + 1 ∧
    (peer_insert ∅ ⟨⟨10, 0, 0, 1⟩, 2224⟩).2 = true ∧
    (peer_insert (peer_insert ∅ ⟨⟨10, 0, 0, 1⟩, 2224⟩).1
        ⟨⟨10, 0, 0, 1⟩, 2224⟩).1 = (peer_insert ∅ ⟨⟨10, 0, 0, 1⟩, 2224⟩).1 ∧
    (peer_insert (peer_insert ∅ ⟨⟨10, 0, 0, 1⟩, 2224⟩).1
        ⟨⟨10, 0, 0, 1⟩, 2224⟩).1.card =
      (peer_insert ∅ ⟨⟨10, 0, 0, 1⟩, 2224⟩).1.card ∧
    (peer_insert (peer_insert ∅ ⟨⟨10, 0, 0, 1⟩, 2224⟩).1
        ⟨⟨10, 0, 0, 1⟩, 2224⟩).2 = false ∧
    (peer_insert ∅ ⟨⟨10, 0, 0, 1⟩, 2224⟩).1.val.Nodup :=
  peer_insert_idempotent ∅ ⟨⟨10, 0, 0, 1⟩, 2224⟩ (by decide)

/-- Claim C10: neither `broadcast_message` nor `discover_peers` modifies
the broadcaster's peer set — both only read a snapshot of it. -/
theorem sends_preserve_peers (sendOk : SocketAddr → List Char → Bool)
    (st : Broadcaster) (message : Message) :
    (broadcast_message sendOk st message).1.peers = st.peers ∧
    (discover_peers st).1.peers = st.peers :=
  ⟨rfl, rfl⟩

/-- Claim C1, counterexample: the claim as stated is false — at a
concrete call with no known peers, `broadcast_message` never targets the
virtual-LAN rendezvous address `100.100.100.100` on the chat port. -/
theorem broadcast_message_sends_counterexample :
    (⟨TAILSCALE_MULTICAST, CHAT_PORT⟩ : SocketAddr) ∉
      Multiset.map (fun s => s.1)
        (broadcast_message (fun _ _ => true) ⟨∅, CHAT_PORT, []⟩
          (Message.new "hi".toList "alice".toList
            "000.000.000.000".toList)).2 := by
  intro hmem
  simp only [broadcast_message, eq_self_iff_true, if_true, Multiset.map_add,
    Multiset.mem_add, Multiset.map_zero, Multiset.map_singleton,
    Multiset.map_coe, Multiset.mem_singleton, Multiset.mem_coe,
    Multiset.not_mem_zero, List.map_map, List.mem_map, false_or] at hmem
  rcases hmem with hbc | ⟨ip, hip, htgt⟩
  · have : TAILSCALE_MULTICAST = BROADCAST_ADDR := congrArg SocketAddr.ip hbc
    simp [TAILSCALE_MULTICAST, BROADCAST_ADDR] at this
  · obtain ⟨a, b, _, _, _, rfl⟩ := (mem_tailscale_range ip).mp hip
    have : (⟨⟨100, a, b, 2⟩, CHAT_PORT⟩ : SocketAddr) =
        ⟨TAILSCALE_MULTICAST, CHAT_PORT⟩ := htgt
    have hd : (2 : Nat) = 100 := congrArg (fun t => t.ip.d) this
    omega

/-- Claim C1, amended: `broadcast_message` attempts a send of the
encoded chat datagram, whatever the per-target outcomes, to every peer of
the snapshot on the chat port, to the local subnet broadcast address
`255.255.255.255` on the chat port, and to every address `100.a.b.2` of
the brute-force Tailscale sweep (`64 ≤ a < 128`, `0 ≤ b < 255`) on the
chat port — but not to the rendezvous address `100.100.100.100`. -/
theorem broadcast_message_targets (sendOk : SocketAddr → List Char → Bool)
    (st : Broadcaster) (message : Message) :
    (∀ p ∈ st.peers,
      (⟨p.ip, st.chat_port⟩, encode_chat message,
        sendOk ⟨p.ip, st.chat_port⟩ (encode_chat message)) ∈
          (broadcast_message sendOk st message).2) ∧
    ((⟨BROADCAST_ADDR, st.chat_port⟩, encode_chat message,
      sendOk ⟨BROADCAST_ADDR, st.chat_port⟩ (encode_chat message)) ∈
        (broadcast_message sendOk st message).2) ∧
    (∀ a b : Nat, 64 ≤ a → a < 128 → b < 255 →
      (⟨⟨100, a, b, 2⟩, st.chat_port⟩, encode_chat message,
        sendOk ⟨⟨100, a, b, 2⟩, st.chat_port⟩ (encode_chat message)) ∈
          (broadcast_message sendOk st message).2) := by
  refine ⟨fun p hp => ?_, ?_, fun a b ha1 ha2 hb => ?_⟩
  · simp only [broadcast_message, Multiset.mem_add]
    left; left
    have hne : st.peers ≠ ∅ := fun he => by simp [he] at hp
    rw [if_neg hne]
    exact Multiset.mem_map_of_mem _ hp
  · simp only [broadcast_message, Multiset.mem_add]
    left; right
    exact Multiset.mem_singleton_self _
  · simp only [broadcast_message, Multiset.mem_add]
    right
    rw [Multiset.mem_coe]
    exact List.mem_map_of_mem _
      ((mem_tailscale_range ⟨100, a, b, 2⟩).mpr ⟨a, b, ha1, ha2, hb, rfl⟩)

/-- Witness for C1 (amended): a concrete broadcaster with one known peer
and an always-failing send oracle still attempts the peer unicast, the
local broadcast and a Tailscale sweep address. -/
theorem broadcast_message_targets_witness :
    ((⟨⟨10, 0, 0, 1⟩, 2223⟩ : SocketAddr), encode_chat
        (Message.new "hi".toList "alice".toList "000.000.000.000".toList),
      false) ∈
      (broadcast_message (fun _ _ => false)
        ⟨{⟨⟨10, 0, 0, 1⟩, 3333⟩}, 2223, []⟩
        (Message.new "hi".toList "alice".toList "000.000.000.000".toList)).2 ∧
    ((⟨BROADCAST_ADDR, 2223⟩ : SocketAddr), encode_chat
        (Message.new "hi".toList "alice".toList "000.000.000.000".toList),
      false) ∈
      (broadcast_message (fun _ _ => false)
        ⟨{⟨⟨10, 0, 0, 1⟩, 3333⟩}, 2223, []⟩
        (Message.new "hi".toList "alice".toList "000.000.000.000".toList)).2 ∧
    ((⟨⟨100, 100, 100, 2⟩, 2223⟩ : SocketAddr), encode_chat
        (Message.new "hi".toList "alice".toList "000.000.000.000".toList),
      false) ∈
      (broadcast_message (fun _ _ => false)
        ⟨{⟨⟨10, 0, 0, 1⟩, 3333⟩}, 2223, []⟩
        (Message.new "hi".toList "alice".toList "000.000.000.000".toList)).2 :=
  ⟨(broadcast_message_targets (fun _ _ => false)
      ⟨{⟨⟨10, 0, 0, 1⟩, 3333⟩}, 2223, []⟩
      (Message.new "hi".toList "alice".toList "000.000.000.000".toList)).1
      ⟨⟨10, 0, 0, 1⟩, 3333⟩ (by decide),
   (broadcast_message_targets (fun _ _ => false)
      ⟨{⟨⟨10, 0, 0, 1⟩, 3333⟩}, 2223, []⟩
      (Message.new "hi".toList "alice".toList "000.000.000.000".toList)).2.1,
   (broadcast_message_targets (fun _ _ => false)
      ⟨{⟨⟨10, 0, 0, 1⟩, 3333⟩}, 2223, []⟩
      (Message.new "hi".toList "alice".toList "000.000.000.000".toList)).2.2
      100 100 (by decide) (by decide) (by decide)⟩

end Reticulum
